import Mathlib

/-!
Verification of the Egyptian War card game server (`src/server.py`,
`src/game_common.py`).  The session engine (`CardGame`), the message
dispatch of `GameServer.handle_events`, and the connection-acceptance
logic are embedded as pure Lean functions; Python lists become `List`,
in-place mutation becomes explicit state passing, and the two uses of
`random.shuffle` are modelled by quantifying over permutations of the
unshuffled deck.
-/

namespace EgyptianWar

/-- A card is the string token `"<rank>_of_<suit>"`, exactly as in the
Python code (`f"{rank}_of_{suit}"`). -/
abbrev Card := String

/-- `RANKS` from `game_common.py`. -/
def RANKS : List String :=
  ["A", "2", "3", "4", "5", "6", "7", "8", "9", "10", "jack", "queen", "king"]

/-- `SUITS` from `game_common.py`. -/
def SUITS : List String := ["hearts", "diamonds", "clubs", "spades"]

/-- The unshuffled deck built by `CardGame.create_deck`:
`[f"{rank}_of_{suit}" for suit in SUITS for rank in RANKS]`.
The subsequent `random.shuffle(self.deck)` is modelled by quantifying
over permutations of this list. -/
def mkDeck : List Card := SUITS.flatMap (fun s => RANKS.map (fun r => r ++ "_of_" ++ s))

/-- The `Player` literal type (`"self" | "opponent"`) from `game_common.py`. -/
inductive Player where
  | self
  | opponent
deriving DecidableEq

/-- The `"opponent" if player == "self" else "self"` expression used
throughout `server.py` to flip roles. -/
def Player.other : Player → Player
  | .self => .opponent
  | .opponent => .self

/-- The mutable state of `CardGame.__init__` in `server.py`:
`deck`, `self_hand`, `opponent_hand`, `pile`, `turn`,
`royal_cards_needed` (`-1` means no royal cards needed). -/
structure CardGame where
  deck : List Card
  self_hand : List Card
  opponent_hand : List Card
  pile : List Card
  turn : Player
  royal_cards_needed : Int
deriving DecidableEq

/-- `CardGame.hand`: `self.self_hand if player == "self" else self.opponent_hand`. -/
def CardGame.hand (g : CardGame) (p : Player) : List Card :=
  match p with
  | .self => g.self_hand
  | .opponent => g.opponent_hand

/-- Writing back through the alias returned by `CardGame.hand`: the Python
code mutates the list returned by `self.hand(player)` in place; in the
functional embedding this becomes an explicit update of the corresponding
field. -/
def CardGame.setHand (g : CardGame) (p : Player) (h : List Card) : CardGame :=
  match p with
  | .self => { g with self_hand := h }
  | .opponent => { g with opponent_hand := h }

/-- The characters of `s` strictly before the first `'_'`; auxiliary for
`cardRank`. -/
def splitHead : List Char → List Char
  | [] => []
  | c :: cs => if c = '_' then [] else c :: splitHead cs

/-- `card.split("_")[0]`: the rank component of a card token. -/
def cardRank (c : Card) : String := String.mk (splitHead c.data)

/-- The `royal_cards` dict of `CardGame.play_card`:
`{"ace": 4, "king": 3, "queen": 2, "jack": 1}`; `none` models the rank
not being a key of the dict. -/
def royalValue (r : String) : Option Int :=
  if r = "ace" then some 4
  else if r = "king" then some 3
  else if r = "queen" then some 2
  else if r = "jack" then some 1
  else none

/-- `CardGame.play_card` from `server.py` (lines 158-205), translated
branch by branch.  Does nothing if it is not `player`'s turn or the hand
is empty; otherwise pops the front card onto the pile and resolves the
royal / countdown / award / alternation cases. -/
def CardGame.play_card (g : CardGame) (p : Player) : CardGame :=
  if p = g.turn then
    match g.hand p with
    | [] => g
    | played :: rest =>
      let g1 := g.setHand p rest
      let g2 := { g1 with pile := g1.pile ++ [played] }
      match royalValue (cardRank played) with
      | some v => { g2 with royal_cards_needed := v, turn := g2.turn.other }
      | none =>
        if (0 : Int) < g2.royal_cards_needed then
          { g2 with royal_cards_needed := g2.royal_cards_needed - 1 }
        else if g2.royal_cards_needed = (0 : Int) then
          { g2.setHand p.other (g2.hand p.other ++ g2.pile) with
              pile := [], royal_cards_needed := -1, turn := p.other }
        else
          { g2 with turn := p.other }
  else g

/-- `CardGame.is_valid_slap` from `server.py` (lines 128-156); Python's
negative indices `pile[-k]` are `pile[len(pile) - k]`. -/
def is_valid_slap (pile : List Card) : Bool :=
  if pile.length < 2 then false
  else if 2 ≤ pile.length ∧
      cardRank (pile.getD (pile.length - 1) "") = cardRank (pile.getD (pile.length - 2) "") then
    true
  else if 3 ≤ pile.length ∧
      cardRank (pile.getD (pile.length - 1) "") = cardRank (pile.getD (pile.length - 3) "") then
    true
  else if 2 ≤ pile.length ∧
      cardRank (pile.getD 0 "") = cardRank (pile.getD (pile.length - 1) "") then
    true
  else false

/-- `CardGame.slap` from `server.py` (lines 207-225); returns the new
state together with the `"correct"` / `"incorrect"` result string. -/
def CardGame.slap (g : CardGame) (p : Player) : CardGame × String :=
  if is_valid_slap g.pile then
    ({ g.setHand p (g.hand p ++ g.pile) with pile := [], royal_cards_needed := -1 }, "correct")
  else
    match g.hand p with
    | [] => (g, "incorrect")
    | c :: rest => ({ g.setHand p rest with pile := g.pile ++ [c] }, "incorrect")

/-- The `GameStatus` TypedDict from `game_common.py`. -/
structure GameStatus where
  kind : String
  turn : Player
  self_hand : Nat
  op_hand : Nat
  pile : List Card
deriving DecidableEq

/-- `CardGame.status` from `server.py` (lines 231-245): the per-viewer
projection of the game state. -/
def CardGame.status (g : CardGame) (p : Player) : GameStatus :=
  { kind := "state"
    turn := if p = g.turn then .self else .opponent
    self_hand := (if p = .self then g.self_hand else g.opponent_hand).length
    op_hand := (if p = .self then g.opponent_hand else g.self_hand).length
    pile := g.pile }

/-- Python's `list.pop()`: removes and returns the last element, `none`
on an empty list. -/
def popBack (l : List Card) : Option (Card × List Card) :=
  match l.getLast? with
  | none => none
  | some c => some (c, l.dropLast)

/-- One guarded draw of `deal_initial_cards`:
`if self.deck: hand.append(self.deck.pop())`. -/
def dealDraw (g : CardGame) (p : Player) : CardGame :=
  match popBack g.deck with
  | none => g
  | some (c, d) => { g.setHand p (g.hand p ++ [c]) with deck := d }

/-- The `for _ in range(26)` loop of `deal_initial_cards`: each round
draws one card for `self` then one for `opponent`, each draw guarded by
a non-emptiness check. -/
def dealLoop : Nat → CardGame → CardGame
  | 0, g => g
  | n + 1, g => dealLoop n (dealDraw (dealDraw g .self) .opponent)

/-- `CardGame.deal_initial_cards` from `server.py` (lines 116-126).
`reshuffle` models the freshly shuffled deck that `create_deck()` would
install if the guard `len(self.deck) < 52` fired. -/
def CardGame.deal_initial_cards (g : CardGame) (reshuffle : List Card) : CardGame :=
  let g0 := if g.deck.length < 52 then { g with deck := reshuffle } else g
  dealLoop 26 g0

/-- `CardGame.__init__` from `server.py` (lines 97-108): fresh empty
state, then `create_deck()` (modelled by the `shuffled` parameter, a
permutation of `mkDeck`), then `deal_initial_cards()`. -/
def CardGame.init (shuffled reshuffle : List Card) : CardGame :=
  CardGame.deal_initial_cards
    { deck := shuffled, self_hand := [], opponent_hand := [], pile := []
      turn := .self, royal_cards_needed := -1 } reshuffle

/-- The `ClientMessage` literal type from `game_common.py`. -/
inductive ClientMsg where
  | pile
  | slap
  | restart
deriving DecidableEq

/-- The server-to-client messages declared by `ServerMessageType` in
`game_common.py`: `full`, `state` (a `GameStatus`), and the
`slap_result` object built in `GameServer.handle_events`. -/
inductive ServerMsg where
  | full
  | state (st : GameStatus)
  | slap_result (result : String)
deriving DecidableEq

/-- `GameServer.send_all_game_status`: connection 0 (role `self`)
receives `status("self")`, connection 1 (role `opponent`) receives
`status("opponent")`.  Each output pair is (recipient role, message). -/
def broadcast_status (g : CardGame) : List (Player × ServerMsg) :=
  [(.self, .state (g.status .self)), (.opponent, .state (g.status .opponent))]

/-- The `match action` dispatch of `GameServer.handle_events`
(`server.py` lines 53-71) for one inbound message from the connection
holding role `p`.  `shuffled`/`reshuffle` model the random decks a
`restart` would draw.  Returns the new game state and the list of
(recipient role, message) sends performed. -/
def handle_msg (g : CardGame) (shuffled reshuffle : List Card) (p : Player) (m : ClientMsg) :
    CardGame × List (Player × ServerMsg) :=
  match m with
  | .restart =>
    let g2 := CardGame.init shuffled reshuffle
    (g2, broadcast_status g2)
  | .pile =>
    if p = g.turn then
      let g2 := g.play_card p
      (g2, broadcast_status g2)
    else (g, [])
  | .slap =>
    let r := g.slap p
    (r.1, [(.self, .slap_result r.2), (.opponent, .slap_result r.2)] ++ broadcast_status r.1)

/-- The lobby state relevant to connection acceptance: the number of
registered connections and the shared game. -/
structure GameServer where
  num_connections : Nat
  game : CardGame
deriving DecidableEq

/-- The connection-acceptance prefix of `GameServer.handle_events`
(`server.py` lines 38-48), seen from the newly connecting socket:
if two players are present the handler returns at once (the websocket
library then closes the connection); otherwise the socket joins the
roster and, when it completes the pair, receives its initial
`status("opponent")` from `send_all_game_status`.  The second component
lists the messages sent to the connecting socket. -/
def GameServer.handle_connect (s : GameServer) : GameServer × List ServerMsg :=
  if s.num_connections = 2 then (s, [])
  else
    let s2 : GameServer := { s with num_connections := s.num_connections + 1 }
    if s2.num_connections = 2 then (s2, [ServerMsg.state (s2.game.status .opponent)])
    else (s2, [])

/-- Pure description of what the deal loop produces from the reversed
deck: cards are taken alternately (first component for `self`, second
for `opponent`), stopping when the deck runs out. -/
def dealR : Nat → List Card → List Card × List Card
  | 0, _ => ([], [])
  | _ + 1, [] => ([], [])
  | _ + 1, [x] => ([x], [])
  | n + 1, x :: y :: rest => (x :: (dealR n rest).1, y :: (dealR n rest).2)

/-- Total number of cards held by the two hands and the pile. -/
def total (g : CardGame) : Nat :=
  g.self_hand.length + g.opponent_hand.length + g.pile.length

/-- The session states reachable from a fresh deal by any sequence of
`play_card` and `slap` calls.  A fresh deal starts from any shuffle
(permutation of the full deck); the `reshuffle` parameter is arbitrary
because the guard in `deal_initial_cards` cannot fire on a full deck. -/
inductive Reachable : CardGame → Prop where
  | deal (d r : List Card) (hd : d.Perm mkDeck) : Reachable (CardGame.init d r)
  | play (g : CardGame) (p : Player) (hg : Reachable g) : Reachable (g.play_card p)
  | slapped (g : CardGame) (p : Player) (hg : Reachable g) : Reachable (g.slap p).1

/-! ### Concrete states used by witnesses and counterexamples

Field order of `CardGame`: deck, self hand, opponent hand, pile, turn,
royal cards needed. -/

/-- State with an in-progress battle at countdown `0` where the player to
move holds a royal card (used against claim C2). -/
def gC2 : CardGame := ⟨[], ["king_of_spades"], ["2_of_hearts"], ["5_of_hearts"], .self, 0⟩

/-- State with countdown `2` and a non-royal front card (C2 witness). -/
def gC2a : CardGame :=
  ⟨[], ["5_of_hearts", "6_of_hearts"], ["2_of_hearts"], ["queen_of_spades"], .self, 2⟩

/-- State with countdown `0` and a non-royal front card (C2 witness). -/
def gC2b : CardGame :=
  ⟨[], ["5_of_hearts", "6_of_hearts"], ["2_of_hearts"],
    ["queen_of_spades", "7_of_clubs", "8_of_clubs"], .self, 0⟩

/-- State whose player to move holds an ace of the real deck (C3). -/
def gC3 : CardGame := ⟨[], ["A_of_spades", "7_of_hearts"], ["2_of_clubs"], [], .self, -1⟩

/-- Small state for the C6 witness. -/
def gC6 : CardGame :=
  ⟨[], ["2_of_hearts"], ["3_of_clubs", "4_of_clubs"], ["9_of_spades"], .self, -1⟩

/-- State whose turn belongs to `self` (C7 counterexample: `opponent`
sends `pile` out of turn). -/
def gC7 : CardGame := ⟨[], ["2_of_hearts"], ["3_of_clubs"], [], .self, -1⟩

/-- Second out-of-turn state (C7 witness). -/
def gC7w : CardGame := ⟨[], ["4_of_hearts"], ["6_of_clubs"], [], .self, -1⟩

/-- Session state of the full lobby used by C8. -/
def gC8 : CardGame := ⟨[], ["2_of_hearts"], ["3_of_clubs"], ["4_of_spades"], .self, -1⟩

/-- A lobby that already has two active connections (C8). -/
def srvC8 : GameServer := ⟨2, gC8⟩

/-! ### Helper lemmas -/

@[simp] lemma hand_self (g : CardGame) : g.hand .self = g.self_hand := rfl

@[simp] lemma hand_opponent (g : CardGame) : g.hand .opponent = g.opponent_hand := rfl

@[simp] lemma other_self : Player.other .self = .opponent := rfl

@[simp] lemma other_opponent : Player.other .opponent = .self := rfl

@[simp] lemma setHand_self (g : CardGame) (h : List Card) :
    g.setHand .self h = { g with self_hand := h } := rfl

@[simp] lemma setHand_opponent (g : CardGame) (h : List Card) :
    g.setHand .opponent h = { g with opponent_hand := h } := rfl

lemma popBack_nil : popBack [] = none := rfl

lemma popBack_append (l : List Card) (c : Card) : popBack (l ++ [c]) = some (c, l) := by
  simp [popBack]

lemma dealR_nil (n : Nat) : dealR n [] = ([], []) := by cases n <;> rfl

lemma dealDraw_empty (g : CardGame) (p : Player) (hd : g.deck = []) : dealDraw g p = g := by
  simp [dealDraw, hd, popBack_nil]

lemma dealDraw_append (g : CardGame) (p : Player) (d : List Card) (c : Card)
    (hd : g.deck = d ++ [c]) :
    dealDraw g p = { g.setHand p (g.hand p ++ [c]) with deck := d } := by
  simp [dealDraw, hd, popBack_append]

lemma dealLoop_spec (n : Nat) : ∀ g : CardGame,
    (dealLoop n g).self_hand = g.self_hand ++ (dealR n g.deck.reverse).1 ∧
    (dealLoop n g).opponent_hand = g.opponent_hand ++ (dealR n g.deck.reverse).2 ∧
    (dealLoop n g).deck = (g.deck.reverse.drop (2 * n)).reverse ∧
    (dealLoop n g).pile = g.pile ∧
    (dealLoop n g).turn = g.turn ∧
    (dealLoop n g).royal_cards_needed = g.royal_cards_needed := by
  induction n with
  | zero => intro g; simp [dealLoop, dealR]
  | succ n ih =>
    intro g
    rcases hrev : g.deck.reverse with _ | ⟨x, xs⟩
    · have hdeck : g.deck = [] := by
        rw [← List.reverse_reverse g.deck, hrev, List.reverse_nil]
      have h1 : dealDraw (dealDraw g .self) .opponent = g := by
        rw [dealDraw_empty g .self hdeck, dealDraw_empty g .opponent hdeck]
      have := ih g
      simp only [dealLoop, h1] at *
      simp_all [dealR_nil, hdeck]
    · rcases xs with _ | ⟨y, rest⟩
      · have hdeck : g.deck = [] ++ [x] := by
          rw [← List.reverse_reverse g.deck, hrev]; rfl
        have h1 : dealDraw g .self = { g.setHand .self (g.hand .self ++ [x]) with deck := [] } :=
          dealDraw_append g .self [] x hdeck
        have h2 : dealDraw (dealDraw g .self) .opponent = dealDraw g .self := by
          apply dealDraw_empty; rw [h1]
        have h3 := ih (dealDraw g .self)
        have hue : (dealDraw g .self).deck = [] := by rw [h1]
        rw [hue, List.reverse_nil, dealR_nil] at h3
        have hdrop : List.drop (2 * (n + 1)) [x] = [] := by
          apply List.drop_eq_nil_of_le; simp; omega
        simp only [dealLoop, h2]
        rw [h1] at h3
        simp_all [dealR, hdrop]
      · have hdeck : g.deck = (rest.reverse ++ [y]) ++ [x] := by
          rw [← List.reverse_reverse g.deck, hrev, List.reverse_cons, List.reverse_cons]
        have h1 : dealDraw g .self = { g.setHand .self (g.hand .self ++ [x])
            with deck := rest.reverse ++ [y] } :=
          dealDraw_append g .self (rest.reverse ++ [y]) x hdeck
        have h2 : dealDraw (dealDraw g .self) .opponent =
            { (dealDraw g .self).setHand .opponent ((dealDraw g .self).hand .opponent ++ [y])
              with deck := rest.reverse } := by
          apply dealDraw_append; rw [h1]
        have h3 := ih (dealDraw (dealDraw g .self) .opponent)
        have hue : (dealDraw (dealDraw g .self) .opponent).deck = rest.reverse := by rw [h2]
        rw [hue, List.reverse_reverse] at h3
        have hmul : 2 * (n + 1) = (2 * n + 1) + 1 := by ring
        simp only [dealLoop]
        rw [h2, h1] at h3 ⊢
        simp only [hand_self, hand_opponent, setHand_self, setHand_opponent] at h3 ⊢
        simp_all [dealR, hmul, List.drop_succ_cons]

lemma dealR_length (n : Nat) : ∀ rd : List Card, 2 * n ≤ rd.length →
    (dealR n rd).1.length = n ∧ (dealR n rd).2.length = n := by
  induction n with
  | zero => intro rd h; simp [dealR]
  | succ n ih =>
    intro rd h
    match rd with
    | [] => simp at h
    | [x] => exfalso; simp at h; omega
    | x :: y :: rest =>
      have h' : 2 * n ≤ rest.length := by simp at h; omega
      have := ih rest h'
      simp [dealR, this.1, this.2]

lemma dealR_sum (n : Nat) : ∀ rd : List Card,
    (dealR n rd).1.length + (dealR n rd).2.length + (rd.drop (2 * n)).length = rd.length := by
  induction n with
  | zero => intro rd; simp [dealR]
  | succ n ih =>
    intro rd
    match rd with
    | [] => simp [dealR]
    | [x] =>
      have : List.drop (2 * (n + 1)) [x] = [] := by
        apply List.drop_eq_nil_of_le; simp; omega
      simp [dealR, this]
    | x :: y :: rest =>
      have hmul : 2 * (n + 1) = (2 * n + 1) + 1 := by ring
      have := ih rest
      simp [List.length_drop] at this
      simp [dealR, hmul, List.drop_succ_cons, List.length_drop]
      omega

lemma dealR_getD (n : Nat) : ∀ (rd : List Card) (i : Nat), i < n →
    (dealR n rd).1.getD i "" = rd.getD (2 * i) "" ∧
    (dealR n rd).2.getD i "" = rd.getD (2 * i + 1) "" := by
  induction n with
  | zero => intro rd i h; omega
  | succ n ih =>
    intro rd i h
    match rd with
    | [] => simp [dealR]
    | [x] =>
      cases i with
      | zero => simp [dealR]
      | succ i =>
        have e1 : 2 * (i + 1) = (2 * i + 1) + 1 := by ring
        simp [dealR, e1]
    | x :: y :: rest =>
      cases i with
      | zero => simp [dealR]
      | succ i =>
        have h' : i < n := by omega
        have := ih rest i h'
        have e1 : 2 * (i + 1) = (2 * i + 1) + 1 := by ring
        have e2 : 2 * (i + 1) + 1 = ((2 * i + 1) + 1) + 1 := by ring
        simp only [dealR, e1, e2, List.getD_cons_succ]
        exact this

lemma mkDeck_length : mkDeck.length = 52 := by decide

lemma init_fields (d r : List Card) (h52 : d.length = 52) :
    (CardGame.init d r).self_hand = (dealR 26 d.reverse).1 ∧
    (CardGame.init d r).opponent_hand = (dealR 26 d.reverse).2 ∧
    (CardGame.init d r).pile = [] ∧
    (CardGame.init d r).turn = .self ∧
    (CardGame.init d r).royal_cards_needed = -1 ∧
    (CardGame.init d r).deck = [] := by
  have hguard : ¬ (d.length < 52) := by omega
  have hspec := dealLoop_spec 26
    { deck := d, self_hand := [], opponent_hand := [], pile := []
      turn := .self, royal_cards_needed := -1 }
  have hdrop : List.drop (2 * 26) d.reverse = [] := by
    apply List.drop_eq_nil_of_le; simp [h52]
  unfold CardGame.init CardGame.deal_initial_cards
  simp_all [hguard]

lemma init_hand_lengths (d r : List Card) (h52 : d.length = 52) :
    (CardGame.init d r).self_hand.length = 26 ∧
    (CardGame.init d r).opponent_hand.length = 26 := by
  have hf := init_fields d r h52
  have hlen : 2 * 26 ≤ d.reverse.length := by simp [h52]
  have := dealR_length 26 d.reverse hlen
  rw [hf.1, hf.2.1]
  exact this

lemma init_sum (d r : List Card) :
    (CardGame.init d r).self_hand.length + (CardGame.init d r).opponent_hand.length +
        (CardGame.init d r).deck.length =
      (if d.length < 52 then r.length else d.length) ∧
    (CardGame.init d r).pile = [] := by
  unfold CardGame.init CardGame.deal_initial_cards
  by_cases hguard : d.length < 52
  · rw [if_pos hguard, if_pos hguard]
    obtain ⟨h1, h2, h3, h4, -, -⟩ := dealLoop_spec 26
      { deck := r, self_hand := [], opponent_hand := [], pile := []
        turn := .self, royal_cards_needed := -1 }
    rw [h1, h2, h3, h4]
    have hsum := dealR_sum 26 r.reverse
    simp only [List.length_append, List.length_nil, List.length_reverse,
      List.length_drop] at hsum ⊢
    exact ⟨by omega, trivial⟩
  · rw [if_neg hguard, if_neg hguard]
    obtain ⟨h1, h2, h3, h4, -, -⟩ := dealLoop_spec 26
      { deck := d, self_hand := [], opponent_hand := [], pile := []
        turn := .self, royal_cards_needed := -1 }
    rw [h1, h2, h3, h4]
    have hsum := dealR_sum 26 d.reverse
    simp only [List.length_append, List.length_nil, List.length_reverse,
      List.length_drop] at hsum ⊢
    exact ⟨by omega, trivial⟩

lemma play_card_total (g : CardGame) (p : Player) : total (g.play_card p) = total g := by
  cases p <;>
    · unfold CardGame.play_card
      split
      · rename_i hturn
        clear hturn
        split
        · rfl
        · next played rest heq =>
          dsimp only
          split
          · simp_all [total, CardGame.hand]; omega
          · split
            · simp_all [total, CardGame.hand]; omega
            · split
              · simp_all [total, CardGame.hand]; omega
              · simp_all [total, CardGame.hand]; omega
      · rfl

lemma slap_total (g : CardGame) (p : Player) : total (g.slap p).1 = total g := by
  unfold CardGame.slap
  split
  · cases p <;> simp [total] <;> omega
  · split
    · rfl
    · next c rest heq =>
      cases p <;> simp_all [total, CardGame.hand] <;> omega

/-! ### Claim theorems -/

/-- Claim C1: card conservation — every session state reachable from a
fresh deal by any sequence of `play_card` and `slap` operations has
`len(self_hand) + len(opponent_hand) + len(pile) = 52`; neither
operation creates or destroys a card. -/
theorem claim1_card_conservation (g : CardGame) (h : Reachable g) : total g = 52 := by
  induction h with
  | deal d r hd =>
    have h52 : d.length = 52 := by rw [hd.length_eq, mkDeck_length]
    have hl := init_hand_lengths d r h52
    have hp := (init_fields d r h52).2.2.1
    simp [total, hl.1, hl.2, hp]
  | play g p hg ih => rw [play_card_total]; exact ih
  | slapped g p hg ih => rw [slap_total]; exact ih

/-- Witness for C1: the state dealt from the unshuffled deck is
reachable and satisfies the conservation invariant. -/
theorem claim1_witness : total (CardGame.init mkDeck mkDeck) = 52 :=
  claim1_card_conservation (CardGame.init mkDeck mkDeck)
    (Reachable.deal mkDeck mkDeck (List.Perm.refl mkDeck))

/-- Claim C3 (code-bug evaluation): the `royal_cards` dict of
`play_card` declares `ace` worth 4, but the deck labels aces `"A"`, so a
real ace card is never recognized as royal: playing `A_of_spades` with
no battle active leaves the countdown at `-1` and merely flips the
turn, instead of starting a 4-card battle. -/
theorem claim3_ace_eval :
    royalValue "ace" = some 4 ∧
    ("A_of_spades" : Card) ∈ mkDeck ∧
    cardRank "A_of_spades" = "A" ∧
    royalValue (cardRank "A_of_spades") = none ∧
    gC3.turn = .self ∧ gC3.royal_cards_needed = -1 ∧
    gC3.play_card .self =
      ⟨[], ["7_of_hearts"], ["2_of_clubs"], ["A_of_spades"], .opponent, -1⟩ := by
  decide

/-- Claim C7 (counterexample): when `opponent` sends `pile` while it is
`self`'s turn, the dispatch loop of `handle_events` drops the action
but also sends nothing at all — no status broadcast happens, contrary
to the claim. -/
theorem claim7_counterexample :
    gC7.turn = .self ∧ handle_msg gC7 [] [] .opponent .pile = (gC7, []) := by decide

/-- Claim C7 (amended): an out-of-turn `pile` action is dropped
silently — `play_card` is not invoked, the state is unchanged — and no
message is sent to either connection (the status broadcast happens only
when the play is processed). -/
theorem claim7_out_of_turn (g : CardGame) (d r : List Card) (p : Player)
    (h : p ≠ g.turn) : handle_msg g d r p .pile = (g, []) := by
  simp [handle_msg, h]

/-- Witness for the amended C7 at a concrete out-of-turn state. -/
theorem claim7_witness : handle_msg gC7w [] [] .opponent .pile = (gC7w, []) :=
  claim7_out_of_turn gC7w [] [] .opponent (by decide)

/-- Claim C8 (code-bug evaluation): with two connections active, a
third connection attempt leaves the roster and the session state
untouched, but the handler returns without sending anything — the
documented `full` message of `ServerMessageType` is never sent. -/
theorem claim8_full_eval :
    srvC8.num_connections = 2 ∧ srvC8.handle_connect = (srvC8, []) := by decide

/-- Claim C10: `slap` never changes whose turn it is, in all three
outcome cases. -/
theorem claim10_slap_turn_frame (g : CardGame) (p : Player) :
    (g.slap p).1.turn = g.turn := by
  unfold CardGame.slap
  split
  · cases p <;> simp
  · split
    · rfl
    · cases p <;> simp

/-- Claim C2 (counterexample): a royal card played while the countdown
is `0` does not award the pile — it starts a new battle (countdown 3
for a king, pile kept, turn flipped), so "plays any card while
battleCountdown == 0" is wrong for royal cards. -/
theorem claim2_counterexample :
    gC2.turn = .self ∧ gC2.hand .self = ["king_of_spades"] ∧
    gC2.royal_cards_needed = 0 ∧
    gC2.play_card .self =
      ⟨[], [], ["2_of_hearts"], ["5_of_hearts", "king_of_spades"], .opponent, 3⟩ := by
  decide

/-- Claim C2 (amended): when the player whose turn it is plays a
NON-royal card while `battleCountdown > 0`, the countdown decrements by
one and the turn does not flip; when they play a NON-royal card while
`battleCountdown == 0`, the entire pile (including the card just
played) is awarded to the other player, the pile is cleared, the
countdown resets to `-1`, and the turn becomes that player.  (A royal
card instead takes the royal branch, as the counterexample shows.) -/
theorem claim2_battle_countdown (g : CardGame) (p : Player) (c : Card) (rest : List Card)
    (hturn : g.turn = p) (hhand : g.hand p = c :: rest)
    (hroyal : royalValue (cardRank c) = none) :
    ((0 : Int) < g.royal_cards_needed →
      (g.play_card p).royal_cards_needed = g.royal_cards_needed - 1 ∧
      (g.play_card p).turn = g.turn ∧
      (g.play_card p).pile = g.pile ++ [c] ∧
      (g.play_card p).hand p = rest ∧
      (g.play_card p).hand p.other = g.hand p.other) ∧
    (g.royal_cards_needed = (0 : Int) →
      (g.play_card p).hand p.other = g.hand p.other ++ (g.pile ++ [c]) ∧
      (g.play_card p).pile = [] ∧
      (g.play_card p).royal_cards_needed = -1 ∧
      (g.play_card p).turn = p.other ∧
      (g.play_card p).hand p = rest) := by
  constructor <;> intro hcnt <;> cases p <;>
    simp_all [CardGame.play_card, CardGame.hand, hroyal]

/-- Witness for the amended C2: a non-royal play at countdown 2
decrements and keeps the turn; a non-royal play at countdown 0 awards
the pile, clears it, resets the countdown, and flips the turn. -/
theorem claim2_witness :
    ((gC2a.play_card .self).royal_cards_needed = gC2a.royal_cards_needed - 1 ∧
      (gC2a.play_card .self).turn = gC2a.turn ∧
      (gC2a.play_card .self).pile = gC2a.pile ++ ["5_of_hearts"] ∧
      (gC2a.play_card .self).hand .self = ["6_of_hearts"] ∧
      (gC2a.play_card .self).hand Player.self.other = gC2a.hand Player.self.other) ∧
    ((gC2b.play_card .self).hand Player.self.other =
        gC2b.hand Player.self.other ++ (gC2b.pile ++ ["5_of_hearts"]) ∧
      (gC2b.play_card .self).pile = [] ∧
      (gC2b.play_card .self).royal_cards_needed = -1 ∧
      (gC2b.play_card .self).turn = Player.self.other ∧
      (gC2b.play_card .self).hand .self = ["6_of_hearts"]) :=
  ⟨(claim2_battle_countdown gC2a .self "5_of_hearts" ["6_of_hearts"]
      (by decide) (by decide) (by decide)).1 (by decide),
   (claim2_battle_countdown gC2b .self "5_of_hearts" ["6_of_hearts"]
      (by decide) (by decide) (by decide)).2 (by decide)⟩

/-- Claim C4: `is_valid_slap` returns true iff the pile has at least 2
cards and one of the three patterns holds — doubles (top rank equals
second-from-top rank), sandwich (at least 3 cards and top rank equals
third-from-top rank), or top-and-bottom (rank at index 0 equals top
rank); any pile with fewer than 2 cards is always invalid. -/
theorem claim4_slap_validity (pile : List Card) :
    is_valid_slap pile = true ↔
      2 ≤ pile.length ∧
        (cardRank (pile.getD (pile.length - 1) "") =
            cardRank (pile.getD (pile.length - 2) "") ∨
          (3 ≤ pile.length ∧
            cardRank (pile.getD (pile.length - 1) "") =
              cardRank (pile.getD (pile.length - 3) "")) ∨
          cardRank (pile.getD 0 "") = cardRank (pile.getD (pile.length - 1) "")) := by
  unfold is_valid_slap
  split_ifs with h1 h2 h3 h4
  · simp only [Bool.false_eq_true, false_iff]
    rintro ⟨hl, -⟩
    omega
  · simp only [true_iff]
    exact ⟨h2.1, Or.inl h2.2⟩
  · simp only [true_iff]
    exact ⟨by omega, Or.inr (Or.inl h3)⟩
  · simp only [true_iff]
    exact ⟨h4.1, Or.inr (Or.inr h4.2)⟩
  · simp only [Bool.false_eq_true, false_iff]
    rintro ⟨hl, heq | hsand | heq2⟩
    · exact h2 ⟨hl, heq⟩
    · exact h3 hsand
    · exact h4 ⟨hl, heq2⟩

/-- Claim C5: slap outcome trichotomy — a valid slap moves the whole
pile (order preserved) to the slapper's hand, clears the pile, force
resets the countdown to `-1`, and returns `"correct"`; an invalid slap
with a non-empty hand moves exactly the slapper's front card onto the
pile with all battle state untouched and returns `"incorrect"`; an
invalid slap with an empty hand changes nothing and returns
`"incorrect"`. -/
theorem claim5_slap_outcomes (g : CardGame) (p : Player) :
    if is_valid_slap g.pile = true then
      (g.slap p).1.hand p = g.hand p ++ g.pile ∧
      (g.slap p).1.hand p.other = g.hand p.other ∧
      (g.slap p).1.pile = [] ∧
      (g.slap p).1.royal_cards_needed = -1 ∧
      (g.slap p).1.turn = g.turn ∧
      (g.slap p).1.deck = g.deck ∧
      (g.slap p).2 = "correct"
    else if g.hand p = [] then
      (g.slap p).1 = g ∧ (g.slap p).2 = "incorrect"
    else
      (g.slap p).1.hand p = (g.hand p).tail ∧
      (g.slap p).1.hand p.other = g.hand p.other ∧
      (g.slap p).1.pile = g.pile ++ [(g.hand p).headD ""] ∧
      (g.slap p).1.royal_cards_needed = g.royal_cards_needed ∧
      (g.slap p).1.turn = g.turn ∧
      (g.slap p).1.deck = g.deck ∧
      (g.slap p).2 = "incorrect" := by
  split_ifs with hv he
  · cases p <;> simp_all [CardGame.slap, CardGame.hand]
  · cases p <;> simp_all [CardGame.slap, CardGame.hand]
  · rcases hh : g.hand p with _ | ⟨c, rest⟩
    · exact absurd hh he
    · cases p <;> simp_all [CardGame.slap, CardGame.hand]

/-- Claim C6: the status projection reports `turn = self` exactly when
the viewer holds the internal turn, reports the viewer's own and the
other hand's sizes, shares the un-remapped pile, and the two viewers
never simultaneously see `turn = self`. -/
theorem claim6_viewer_remap (g : CardGame) (v : Player) :
    ((g.status v).turn = .self ↔ v = g.turn) ∧
    (g.status v).self_hand = (g.hand v).length ∧
    (g.status v).op_hand = (g.hand v.other).length ∧
    (g.status v).pile = g.pile ∧
    (((g.status .self).turn = .self ∧ (g.status .opponent).turn = .self) ↔ False) := by
  cases v <;> cases hgt : g.turn <;> simp_all [CardGame.status, CardGame.hand]

/-- Witness for C6 at a concrete state and viewer. -/
theorem claim6_witness :
    ((gC6.status .opponent).turn = .self ↔ Player.opponent = gC6.turn) ∧
    (gC6.status .opponent).self_hand = (gC6.hand .opponent).length ∧
    (gC6.status .opponent).op_hand = (gC6.hand Player.opponent.other).length ∧
    (gC6.status .opponent).pile = gC6.pile ∧
    (((gC6.status .self).turn = .self ∧ (gC6.status .opponent).turn = .self) ↔ False) :=
  claim6_viewer_remap gC6 .opponent

/-- Claim C9: after a fresh deal (and after a restart, which re-runs
the same initialization) each hand has exactly 26 cards and the pile is
empty; the cards are drawn from the back of the shuffled deck
alternately into the two hands; and the deal never fails on any deck —
for arbitrary (even short) decks it completes and loses no cards. -/
theorem claim9_deal_fairness :
    (∀ d r : List Card, d.Perm mkDeck →
      (CardGame.init d r).self_hand.length = 26 ∧
      (CardGame.init d r).opponent_hand.length = 26 ∧
      (CardGame.init d r).pile = [] ∧
      (∀ i : Nat, i < 26 →
        (CardGame.init d r).self_hand.getD i "" = d.reverse.getD (2 * i) "" ∧
        (CardGame.init d r).opponent_hand.getD i "" = d.reverse.getD (2 * i + 1) "")) ∧
    (∀ d r : List Card,
      (CardGame.init d r).self_hand.length + (CardGame.init d r).opponent_hand.length +
          (CardGame.init d r).deck.length =
        (if d.length < 52 then r.length else d.length) ∧
      (CardGame.init d r).pile = []) ∧
    (∀ (g : CardGame) (d r : List Card) (p : Player),
      (handle_msg g d r p .restart).1 = CardGame.init d r) := by
  refine ⟨?_, init_sum, ?_⟩
  · intro d r hperm
    have h52 : d.length = 52 := by rw [hperm.length_eq, mkDeck_length]
    have hf := init_fields d r h52
    have hl := init_hand_lengths d r h52
    refine ⟨hl.1, hl.2, hf.2.2.1, ?_⟩
    intro i hi
    rw [hf.1, hf.2.1]
    exact dealR_getD 26 d.reverse i hi
  · intro g d r p
    simp only [handle_msg]

/-- Witness for C9: the unshuffled full deck is a permutation of
itself, and the dealt state satisfies the fairness properties. -/
theorem claim9_witness :
    (CardGame.init mkDeck []).self_hand.length = 26 ∧
    (CardGame.init mkDeck []).opponent_hand.length = 26 ∧
    (CardGame.init mkDeck []).pile = [] ∧
    (CardGame.init mkDeck []).self_hand.getD 0 "" = mkDeck.reverse.getD (2 * 0) "" := by
  have h := claim9_deal_fairness.1 mkDeck [] (List.Perm.refl mkDeck)
  exact ⟨h.1, h.2.1, h.2.2.1, (h.2.2.2 0 (by omega)).1⟩

end EgyptianWar
